import Mathlib

set_option autoImplicit false

/- Shallow embedding of `src/cqparts_fasteners/catalogue/scripts/boltdepot.py`
   and `tests/base.py` of the cqparts repository.  Python-level behaviour that
   the script relies on (list indexing with negative indices, dict insertion
   order with last-value-wins on duplicate keys, `str.split`, `str.rstrip`,
   the regular expression in `split_url`, exceptions) is modelled explicitly.
   Raised exceptions are modelled with `Except PyError`. -/

/-- Kinds of Python exception raised by the modelled code paths. -/
inductive PyError
  | indexError
  | nameError
  | attributeError
  | valueError
  | assertionError
  | notImplementedError
deriving DecidableEq, Repr

/-- True iff an `Except` computation finished without raising. -/
def isOkE {β : Type} : Except PyError β → Bool
  | .ok _ => true
  | .error _ => false

/- ---------- small generic list lemmas used throughout ---------- -/

theorem getD_of_length_le {α : Type} (l : List α) (i : Nat) (d : α)
    (h : l.length ≤ i) : l.getD i d = d := by
  induction l generalizing i with
  | nil => cases i <;> rfl
  | cons a t ih =>
    cases i with
    | zero => simp at h
    | succ n => simpa using ih n (by simpa using h)

theorem getD_append_of_lt {α : Type} (l l2 : List α) (i : Nat) (d : α)
    (h : i < l.length) : (l ++ l2).getD i d = l.getD i d := by
  induction l generalizing i with
  | nil => simp at h
  | cons a t ih =>
    cases i with
    | zero => rfl
    | succ n => simpa using ih n (by simpa using h)

theorem getD_append_of_le {α : Type} (l l2 : List α) (i : Nat) (d : α)
    (h : l.length ≤ i) : (l ++ l2).getD i d = l2.getD (i - l.length) d := by
  induction l generalizing i with
  | nil => simp
  | cons a t ih =>
    cases i with
    | zero => simp at h
    | succ n => simpa using ih n (by simpa using h)

theorem getD_replicate {α : Type} (n : Nat) (x : α) (i : Nat) (d : α)
    (h : i < n) : (List.replicate n x).getD i d = x := by
  induction n generalizing i with
  | zero => omega
  | succ m ih =>
    cases i with
    | zero => rfl
    | succ k =>
      rw [List.replicate_succ]
      simpa using ih k (by omega)

theorem getD_set_of_lt {α : Type} (l : List α) (i : Nat) (a : α) (d : α)
    (h : i < l.length) : (l.set i a).getD i d = a := by
  induction l generalizing i with
  | nil => simp at h
  | cons b t ih =>
    cases i with
    | zero => rfl
    | succ n => simpa using ih n (by simpa using h)

theorem getD_set_of_ne {α : Type} (l : List α) (i j : Nat) (a : α) (d : α)
    (h : i ≠ j) : (l.set i a).getD j d = l.getD j d := by
  induction l generalizing i j with
  | nil => rfl
  | cons b t ih =>
    cases i with
    | zero => cases j with
      | zero => omega
      | succ m => rfl
    | succ n =>
      cases j with
      | zero => rfl
      | succ m => simpa using ih n m (by omega)

theorem getD_mem {α : Type} (l : List α) (i : Nat) (d : α)
    (h : i < l.length) : l.getD i d ∈ l := by
  induction l generalizing i with
  | nil => simp at h
  | cons a t ih =>
    cases i with
    | zero => simp [List.getD]
    | succ n =>
      have := ih n (by simpa using h)
      simp only [List.getD] at this ⊢
      exact List.mem_cons_of_mem _ this

/- ---------- GrowingList (boltdepot.py lines 130-148) ----------

class GrowingList(list):
    def __init__(self, *args, **kwargs):
        self._default_type = kwargs.pop('default_type', lambda: None)
        ...
    def __getitem__(self, index):
        if index >= len(self):
            self.extend([self._default_type() for i in range(index + 1 - len(self))])
        return super(GrowingList, self).__getitem__(index)
    def __setitem__(self, index, value):
        if index >= len(self):
            self.extend([self._default_type() for i in range(index + 1 - len(self))])
        super(GrowingList, self).__setitem__(index, value)

The default factories used by the script (`lambda: None` and `GrowingList`)
are pure, so a factory is modelled by the value it produces (`dflt`).
`list.__getitem__` / `list.__setitem__` follow Python semantics: a negative
index counts from the back and raises `IndexError` past the front. -/

/-- Model of `GrowingList.__getitem__` on backing list `l` with default-factory output
`dflt`; returns the (possibly extended) backing list and the element read. -/
def pyListGet {α : Type} (dflt : α) (l : List α) (i : Int) :
    Except PyError (List α × α) :=
  if (l.length : Int) ≤ i then
    let d := l ++ List.replicate (i + 1 - l.length).toNat dflt
    .ok (d, d.getD i.toNat dflt)
  else if 0 ≤ i then
    .ok (l, l.getD i.toNat dflt)
  else if -(l.length : Int) ≤ i then
    .ok (l, l.getD ((l.length : Int) + i).toNat dflt)
  else
    .error .indexError

/-- Model of `GrowingList.__setitem__` on backing list `l` with default-factory output
`dflt`; returns the updated backing list. -/
def pyListSet {α : Type} (dflt : α) (l : List α) (i : Int) (v : α) :
    Except PyError (List α) :=
  if (l.length : Int) ≤ i then
    .ok ((l ++ List.replicate (i + 1 - l.length).toNat dflt).set i.toNat v)
  else if 0 ≤ i then
    .ok (l.set i.toNat v)
  else if -(l.length : Int) ≤ i then
    .ok (l.set ((l.length : Int) + i).toNat v)
  else
    .error .indexError

/-- The `GrowingList` class: backing list plus the default factory's output. -/
structure GrowingList (α : Type) where
  data : List α
  dflt : α
deriving DecidableEq, Repr

def GrowingList.getitem {α : Type} (l : GrowingList α) (i : Int) :
    Except PyError (GrowingList α × α) :=
  match pyListGet l.dflt l.data i with
  | .error e => .error e
  | .ok (d, v) => .ok (⟨d, l.dflt⟩, v)

def GrowingList.setitem {α : Type} (l : GrowingList α) (i : Int) (v : α) :
    Except PyError (GrowingList α) :=
  match pyListSet l.dflt l.data i v with
  | .error e => .error e
  | .ok d => .ok ⟨d, l.dflt⟩

/- ---------- Table extraction (BoltDepotDataSpider.table_data) ----------

The grid built by `table_data` is `GrowingList(default_type=GrowingList)`:
its rows are `GrowingList()`s whose default factory is `lambda: None`.
We represent a row by its backing list (`GRow`, default `none`) and the grid
by the list of rows (default: fresh empty row). -/

abbrev GRow := List (Option String)
abbrev Grid := List GRow

/-- Growth step of `GrowingList.__getitem__`/`__setitem__` for a row
(default factory `lambda: None`): pad with `none` so index `i` exists. -/
def rowGrow (r : GRow) (i : Nat) : GRow :=
  if r.length ≤ i then r ++ List.replicate (i + 1 - r.length) none else r

/-- Assignment `row[i] = v` on a row `GrowingList` (nonnegative index). -/
def rowSet (r : GRow) (i : Nat) (v : Option String) : GRow :=
  (rowGrow r i).set i v

/-- Growth step for the outer grid `GrowingList` (default factory
`GrowingList`, i.e. a fresh empty row). -/
def gridGrow (g : Grid) (i : Nat) : Grid :=
  if g.length ≤ i then g ++ List.replicate (i + 1 - g.length) ([] : GRow) else g

/-- Value at grid position `(x, y)`; positions never written read as `none`
(matching the sparse GrowingList semantics). -/
def glookup (g : Grid) (x y : Nat) : Option String :=
  (g.getD x []).getD y none

/-- The `while row[i] is not None: i += 1` scan of `push_data`, expressed on
the suffix of the row: number of leading non-`None` slots. -/
def scanFree : GRow → Nat
  | [] => 0
  | none :: _ => 0
  | some _ :: rest => scanFree rest + 1

/-- First index `k ≥ i` whose slot reads as `None` (slots at or past the end
read as `None` because `GrowingList.__getitem__` auto-extends with the
default `None`). -/
def findFree (r : GRow) (i : Nat) : Nat :=
  i + scanFree (r.drop i)

/-- Function `push_data(row, i, val)` (boltdepot.py lines 161-172):

    assert isinstance(row, GrowingList), ...
    assert val is not None
    try:
        while row[i] is not None:
            i += 1
    except IndexError:
        pass
    row[i] = val
    return i

The loop's reads auto-extend rather than raise, so it stops at the first
`None`-reading slot `findFree row i`; the net row update is `rowSet` there
(the loop's own auto-extension pads exactly the slots `rowSet` pads). -/
def push_data (row : GRow) (i : Nat) (val : Option String) :
    Except PyError (GRow × Nat) :=
  if val = none then .error .assertionError
  else
    let k := findFree row i
    .ok (rowSet row k val, k)

/-- Python `str.rstrip('\r\n\t ')` used on cell text. -/
def pyRstrip (s : String) : String :=
  ⟨(s.data.reverse.dropWhile
      (fun c => c == '\r' || c == '\n' || c == '\t' || c == ' ')).reverse⟩

/-- HTML cell tag as selected by `row.css('th, td')`. -/
inductive Tag
  | th
  | td
deriving DecidableEq, Repr

/-- One table cell: tag, optional text node, and the integer values of the
`rowspan`/`colspan` attributes (`int(... or 1)`, so 1 when absent). -/
structure Cell where
  tag : Tag
  text : Option String
  rowspan : Nat
  colspan : Nat
deriving DecidableEq, Repr

abbrev TRow := List Cell
abbrev Table := List TRow

/-- Assignment `data[x][y] = value` in the rectangle loop: `data[x]` is
`GrowingList.__getitem__` on the grid (growing it), and the assignment is
`GrowingList.__setitem__` on the returned row object, which the grid holds. -/
def writeCellAt (g : Grid) (x y : Nat) (v : String) : Grid :=
  let g1 := gridGrow g x
  g1.set x (rowSet (g1.getD x []) y (some v))

/-- Loop `for dj in range(c): data[x][k+dj] = v`. -/
def rowWrite (g : Grid) (x k c : Nat) (v : String) : Grid :=
  (List.range c).foldl (fun gg dj => writeCellAt gg x (k + dj) v) g

/-- Loops `for di in range(rs): for dj in range(cs): data[i+di][k+dj] = v`. -/
def rectWrite (g : Grid) (i k rs cs : Nat) (v : String) : Grid :=
  (List.range rs).foldl (fun gg di => rowWrite gg (i + di) k cs v) g

/-- Body of the inner `for cell in row.css('th, td')` loop of `table_data`.
State: current grid, running column cursor `j`, running `is_header_row`. -/
def processCell (acc : Grid × Nat × Bool) (i : Nat) (cell : Cell) :
    Grid × Nat × Bool :=
  let g := acc.1
  let j := acc.2.1
  let hdr := acc.2.2
  -- value = cell.css('::text').extract_first(); '' if None; rstripped
  let value := pyRstrip (cell.text.getD "")
  -- if cell.root.tag != 'th': is_header_row = False
  let hdr := hdr && (cell.tag == Tag.th)
  -- j = push_data(data[i], j, value): data[i] grows the grid and returns the
  -- row object; push_data (val = some value, so its assert passes) finds the
  -- slot and writes; the grid holds the mutated row.
  let g1 := gridGrow g i
  let row := g1.getD i []
  let k := findFree row j
  let g2 := g1.set i (rowSet row k (some value))
  -- duplicate merged content over the rowspan x colspan rectangle
  let g3 := rectWrite g2 i k cell.rowspan cell.colspan value
  (g3, k + 1, hdr)

/-- One row of the `for (i, row) in enumerate(table.css('tr'))` loop: fold
the cells with `j = 0`, `is_header_row = True`. -/
def processRow (g : Grid) (i : Nat) (cells : TRow) : Grid × Bool :=
  let res := cells.foldl (fun acc c => processCell acc i c) (g, 0, true)
  (res.1, res.2.2)

/-- The enumerated row loop of `table_data`, threading the grid and
`header_count`. -/
def tableLoop (rows : List TRow) (i : Nat) (g : Grid) (hc : Nat) :
    Grid × Nat :=
  match rows with
  | [] => (g, hc)
  | r :: rest =>
    let res := processRow g i r
    tableLoop rest (i + 1) res.1 (hc + if res.2 then 1 else 0)

/-- Static method `BoltDepotDataSpider.table_data` (boltdepot.py lines 154-199): returns
the populated grid and the header-row count. -/
def table_data (tbl : Table) : Grid × Nat :=
  tableLoop tbl 0 [] 0

/-- Number of leading rows composed entirely of header-tagged cells — the
quantity the claim says `header_row_count` equals (stated from the claim's
words, for comparison with the code's `table_data`). -/
def leadingAllHeaderRows (tbl : Table) : Nat :=
  (tbl.takeWhile (fun r => r.all (fun c => c.tag == Tag.th))).length

/- ---------- BoltDepotDataSpider.parse (boltdepot.py lines 201-210) ----------

    (data, header_count) = self.table_data(table)
    header = data[header_count - 1]  # last header row
    for row in data[header_count:]:
        row_data = dict(zip(header, row))
        if any(v for v in row_data.values()):
            yield row_data
-/

/-- A yielded record: a Python dict as an ordered association list (keys keep
their first-insertion position; a later duplicate key overwrites the value). -/
abbrev Record := List (Option String × Option String)

/-- Assignment `d[k] = v` on a Python dict modelled as an ordered association list. -/
def dictSetItem {κ ν : Type} [DecidableEq κ] :
    List (κ × ν) → κ → ν → List (κ × ν)
  | [], k, v => [(k, v)]
  | p :: rest, k, v =>
    if p.1 = k then (k, v) :: rest else p :: dictSetItem rest k v

/-- Python `dict(pairs)`: insert the pairs left to right. -/
def pyDictOfPairs {κ ν : Type} [DecidableEq κ] (ps : List (κ × ν)) :
    List (κ × ν) :=
  ps.foldl (fun d p => dictSetItem d p.1 p.2) []

/-- Python truthiness of a cell value (`None` and `''` are falsy). -/
def truthy : Option String → Bool
  | none => false
  | some s => s != ""

/-- Record `dict(zip(header, row))`. -/
def mkRecord (header row : GRow) : Record :=
  pyDictOfPairs (List.zip header row)

/-- The yield loop of `parse`: emit each row's record iff
`any(v for v in row_data.values())`. -/
def emitRecords (header : GRow) (rows : List GRow) : List Record :=
  rows.filterMap (fun row =>
    let rd := mkRecord header row
    if rd.any (fun p => truthy p.2) then some rd else none)

/-- Method `BoltDepotDataSpider.parse` applied to one table element.
`data[header_count - 1]` is `GrowingList.__getitem__` at an `Int` index
(`-1` when `header_count = 0`); `data[header_count:]` is a plain slice of
the (possibly extended) grid. -/
def parse (tbl : Table) : Except PyError (List Record) :=
  match table_data tbl with
  | (data, hc) =>
    match pyListGet ([] : GRow) data ((hc : Int) - 1) with
    | .error e => .error e
    | .ok (data2, header) => .ok (emitRecords header (data2.drop hc))

/- ---------- URL query codec (boltdepot.py lines 18-29) ----------

def split_url(url):
    match = re.search(r'^(?P<base>.*)\?(?P<params>.*)$', url, flags=re.I)
    return (
        match.group('base'),
        {k: v for (k, v) in (p.split('=') for p in match.group('params').split('&'))}
    )

def join_url(base, params):
    return "{base}?{params}".format(
        base=base,
        params='&'.join('%s=%s' % (k, v) for (k, v) in params.items()),
    )

Strings are modelled as lists of characters.  In the regex, `.` does not
match a newline and `$` also matches just before one trailing newline; both
groups are greedy, so the match (anchored at position 0 by `^`) puts the
last eligible `?` between the groups.  `re.search` returns `None` when no
match exists, and `match.group` on `None` raises `AttributeError`.
`p.split('=')` unpacked into `(k, v)` raises `ValueError` unless it has
exactly two parts. -/

abbrev PyStr := List Char

/-- Membership test `c in s` for a Python string. -/
def hasChar (c : Char) : PyStr → Bool
  | [] => false
  | x :: rest => x == c || hasChar c rest

/-- Python `sep.join(parts)` for a single string separator. -/
def pyJoin (sep : PyStr) : List PyStr → PyStr
  | [] => []
  | [p] => p
  | p :: rest => p ++ sep ++ pyJoin sep rest

/-- Python `s.split(sep)` for a single-character separator. -/
def splitChar (sep : Char) : PyStr → List PyStr
  | [] => [[]]
  | c :: rest =>
    match splitChar sep rest with
    | [] => [[]]
    | h :: t => if c = sep then [] :: h :: t else (c :: h) :: t

/-- Python `p.split('=')` unpacked into a pair `(k, v)`. -/
def pySplitEq (p : PyStr) : Except PyError (PyStr × PyStr) :=
  match splitChar '=' p with
  | [k, v] => .ok (k, v)
  | _ => .error .valueError

/-- Left-to-right effectful map, stopping at the first raised error (the
order in which the dict comprehension consumes its generator). -/
def mapExcept {α β : Type} (f : α → Except PyError β) :
    List α → Except PyError (List β)
  | [] => .ok []
  | x :: xs =>
    match f x with
    | .error e => .error e
    | .ok y =>
      match mapExcept f xs with
      | .error e => .error e
      | .ok ys => .ok (y :: ys)

/-- Candidate match of `^(.*)\?(.*)$` with the literal `?` at position `p`:
group 1 (`cs.take p`) must be newline-free; group 2 takes the rest, allowing
`$` to sit before one trailing newline. -/
def candAt (cs : PyStr) (p : Nat) : Option (PyStr × PyStr) :=
  let base := cs.take p
  let rest := cs.drop (p + 1)
  if hasChar '\n' base then none
  else if hasChar '\n' rest = false then some (base, rest)
  else if rest.getLastD ' ' = '\n' ∧ hasChar '\n' rest.dropLast = false then
    some (base, rest.dropLast)
  else none

/-- Model of `re.search(r'^(?P<base>.*)\?(?P<params>.*)$', url)`: greedy group 1 means
the rightmost workable `?` wins, so try `?` positions right to left. -/
def reSearch (cs : PyStr) : Option (PyStr × PyStr) :=
  (((List.range cs.length).filter (fun p => cs.getD p ' ' == '?')).reverse).findSome?
    (candAt cs)

/-- Function `split_url` (boltdepot.py lines 18-23). -/
def split_url (url : PyStr) : Except PyError (PyStr × List (PyStr × PyStr)) :=
  match reSearch url with
  | none => .error .attributeError
  | some (base, params) =>
    match mapExcept pySplitEq (splitChar '&' params) with
    | .error e => .error e
    | .ok pairs => .ok (base, pyDictOfPairs pairs)

/-- Function `join_url` (boltdepot.py lines 25-29); the association list carries the
mapping's iteration order. -/
def join_url (base : PyStr) (params : List (PyStr × PyStr)) : PyStr :=
  base ++ '?' :: pyJoin ['&'] (params.map (fun kv => kv.1 ++ '=' :: kv.2))

/- ---------- Action sequencing (boltdepot.py module tail) ---------- -/

/-- A validated command-line action. -/
inductive PyAction
  | scrape
  | csv
  | build
deriving DecidableEq, Repr

/-- The module-level `csv` action block (boltdepot.py lines 374-399).  Its
loop body begins with `feed_json = FEED_URI % {...}`, but `FEED_URI` is only
ever defined as the class attribute `BoltDepotSpider.FEED_URI`; no module
global of that name exists, so the first iteration raises `NameError`
before any feed file is read.  With no requested catalogues the loop body
never runs and the block completes. -/
def csvAction (catalogues : List String) : Except PyError Unit :=
  match catalogues with
  | [] => .ok ()
  | _ :: _ => .error .nameError

/-- Canonical position of each phase in the script's source order. -/
def rank : PyAction → Nat
  | .scrape => 0
  | .csv => 1
  | .build => 2

/-- The sequence of phases that begin executing for a given action list and
catalogue list: the script tests `'scrape' in args.actions`, then
`'csv' in ...`, then `'build' in ...` in source order.  An uncaught
exception aborts the process, so nothing after a raising phase begins:
`csv` raises `NameError` whenever a catalogue is requested (`csvAction`),
and `build` always raises `NotImplementedError` (but is last). -/
def runActions (actions : List PyAction) (catalogues : List String) :
    List PyAction :=
  (if actions.contains PyAction.scrape then [PyAction.scrape] else []) ++
  (if actions.contains PyAction.csv then
    PyAction.csv ::
      (match csvAction catalogues with
       | .ok _ =>
         if actions.contains PyAction.build then [PyAction.build] else []
       | .error _ => [])
   else
    (if actions.contains PyAction.build then [PyAction.build] else []))

/- ---------- tests/base.py: testlabel (lines 12-27) ----------

def testlabel(*labels):
    def inner(cls):
        cls._labels = set(labels) | getattr(cls, '_labels', set())
        return cls
    return inner
-/

/-- A Python class as seen by `testlabel`: its name (standing for its
identity) and its `_labels` attribute when `getattr` would find one
(directly or inherited). -/
structure PyClass where
  name : String
  labels : Option (Finset String)

/-- Applying the `testlabel(*labels)` decorator to a class. -/
def testlabel (labels : List String) (cls : PyClass) : PyClass :=
  { cls with labels := some (labels.toFinset ∪ cls.labels.getD ∅) }

/- ==================== supporting lemmas ==================== -/

theorem scanFree_getD (l : GRow) : l.getD (scanFree l) none = none := by
  induction l with
  | nil => rfl
  | cons a rest ih =>
    cases a with
    | none => rfl
    | some s => simpa [scanFree] using ih

theorem scanFree_lt (l : GRow) (t : Nat) (h : t < scanFree l) :
    l.getD t none ≠ none := by
  induction l generalizing t with
  | nil => simp [scanFree] at h
  | cons a rest ih =>
    cases a with
    | none => simp [scanFree] at h
    | some s =>
      cases t with
      | zero => simp [List.getD]
      | succ n => simpa using ih n (by simpa [scanFree] using h)

theorem getD_add_drop {α : Type} (l : List α) (i k : Nat) (d : α) :
    l.getD (i + k) d = (l.drop i).getD k d := by
  induction l generalizing i with
  | nil => simp
  | cons a t ih =>
    cases i with
    | zero => simp
    | succ n =>
      have h2 : n + 1 + k = (n + k) + 1 := by omega
      rw [h2]
      simp only [List.getD_cons_succ, List.drop_succ_cons]
      exact ih n

theorem findFree_getD (r : GRow) (i : Nat) :
    r.getD (findFree r i) none = none := by
  rw [findFree, getD_add_drop]
  exact scanFree_getD _

theorem findFree_min (r : GRow) (i m : Nat) (h1 : i ≤ m)
    (h2 : m < findFree r i) : r.getD m none ≠ none := by
  have hm : m = i + (m - i) := by omega
  rw [hm, getD_add_drop]
  exact scanFree_lt _ _ (by simp only [findFree] at h2; omega)

theorem rowGrow_length (r : GRow) (i : Nat) : i < (rowGrow r i).length := by
  rw [rowGrow]
  split
  · simp; omega
  · omega

theorem rowSet_getD_self (r : GRow) (i : Nat) (v : Option String) :
    (rowSet r i v).getD i none = v :=
  getD_set_of_lt _ _ _ _ (rowGrow_length r i)

/- ==================== Claim C2 ==================== -/

/-- Claim C2 counterexample: on an empty `GrowingList` (default factory
`lambda: None`), `get(-1)` — a negative index past the front — raises
`IndexError` instead of extending, contradicting the claim that no error is
ever raised for out-of-range access in either direction. -/
theorem growinglist_neg_get_raises :
    (⟨[], none⟩ : GrowingList (Option Nat)).getitem (-1)
      = .error PyError.indexError := rfl

/-- Claim C2 (amended): `get`/`set` never raise for any index `≥ 0`
(beyond-length indices transparently extend the sequence first); negative
indices follow plain Python list semantics — a negative index within
`[-len, -1]` succeeds without extension, and a negative index past the
front raises `IndexError`. -/
theorem growinglist_get_set_amended :
    ∀ (α : Type) (l : GrowingList α) (i : Int) (v : α),
    (0 ≤ i → isOkE (l.getitem i) = true ∧ isOkE (l.setitem i v) = true)
    ∧ (-(l.data.length : Int) ≤ i →
        isOkE (l.getitem i) = true ∧ isOkE (l.setitem i v) = true)
    ∧ (i < -(l.data.length : Int) →
        l.getitem i = .error PyError.indexError
        ∧ l.setitem i v = .error PyError.indexError) := by
  intro α l i v
  refine ⟨?_, ?_, ?_⟩ <;> intro h
  · by_cases h1 : (l.data.length : Int) ≤ i
    · simp [GrowingList.getitem, GrowingList.setitem, pyListGet, pyListSet,
        h1, isOkE]
    · simp [GrowingList.getitem, GrowingList.setitem, pyListGet, pyListSet,
        h1, h, isOkE]
  · by_cases h1 : (l.data.length : Int) ≤ i
    · simp [GrowingList.getitem, GrowingList.setitem, pyListGet, pyListSet,
        h1, isOkE]
    · by_cases h2 : 0 ≤ i
      · simp [GrowingList.getitem, GrowingList.setitem, pyListGet, pyListSet,
          h1, h2, isOkE]
      · simp [GrowingList.getitem, GrowingList.setitem, pyListGet, pyListSet,
          h1, h2, h, isOkE]
  · have h1 : ¬((l.data.length : Int) ≤ i) := by omega
    have h2 : ¬(0 ≤ i) := by omega
    have h3 : ¬(-(l.data.length : Int) ≤ i) := by omega
    simp [GrowingList.getitem, GrowingList.setitem, pyListGet, pyListSet,
      h1, h2, h3, isOkE]

/-- Claim C2 witness: a concrete instance of the amended theorem — index 5
on a one-element sequence succeeds for both access directions of the
forward case, and index -2 raises. -/
theorem growinglist_get_set_amended_witness :
    isOkE ((⟨[none], none⟩ : GrowingList (Option Nat)).getitem 5) = true
    ∧ isOkE ((⟨[none], none⟩ : GrowingList (Option Nat)).setitem 5 (some 3))
        = true
    ∧ (⟨[none], none⟩ : GrowingList (Option Nat)).getitem (-2)
        = .error PyError.indexError
    ∧ (⟨[none], none⟩ : GrowingList (Option Nat)).setitem (-2) (some 3)
        = .error PyError.indexError :=
  ⟨((growinglist_get_set_amended (Option Nat) ⟨[none], none⟩ 5 (some 3)).1
      (by decide)).1,
   ((growinglist_get_set_amended (Option Nat) ⟨[none], none⟩ 5 (some 3)).1
      (by decide)).2,
   ((growinglist_get_set_amended (Option Nat) ⟨[none], none⟩ (-2) (some 3)).2.2
      (by decide)).1,
   ((growinglist_get_set_amended (Option Nat) ⟨[none], none⟩ (-2) (some 3)).2.2
      (by decide)).2⟩

/- ==================== Claim C9 ==================== -/

/-- Claim C9: for a row buffer (default factory `lambda: None`) and a
nonnegative start index, `push_data` with a non-`None` value terminates with
no error, returning the least index `k ≥ i` whose slot reads as `None`
before the call (slots at or past the end read as `None` under the sparse
semantics) and writing the value there; and `GrowingList.__getitem__` never
raises for a nonnegative index, so the `except IndexError` handler is
unreachable. -/
theorem push_data_spec :
    ∀ (row : GRow) (i : Nat) (v : Option String), v ≠ none →
    push_data row i v = .ok (rowSet row (findFree row i) v, findFree row i)
    ∧ i ≤ findFree row i
    ∧ row.getD (findFree row i) none = none
    ∧ (∀ m, i ≤ m → m < findFree row i → row.getD m none ≠ none)
    ∧ (rowSet row (findFree row i) v).getD (findFree row i) none = v
    ∧ (∀ n : Nat, isOkE (pyListGet (none : Option String) row (n : Int))
        = true) := by
  intro row i v hv
  refine ⟨?_, ?_, findFree_getD row i, findFree_min row i, ?_, ?_⟩
  · rw [push_data, if_neg hv]
  · simp [findFree]
  · exact rowSet_getD_self _ _ _
  · intro n
    by_cases h1 : (row.length : Int) ≤ (n : Int)
    · simp [pyListGet, h1, isOkE]
    · simp [pyListGet, h1, isOkE]

/-- Claim C9 witness: pushing `"v"` at index 0 into the row `[some "x"]`
lands in slot 1 (auto-extended) with no error. -/
theorem push_data_spec_witness :
    push_data [some "x"] 0 (some "v") = .ok ([some "x", some "v"], 1)
    ∧ 0 ≤ findFree [some "x"] 0
    ∧ isOkE (pyListGet (none : Option String) [some "x"] ((7 : Nat) : Int))
        = true :=
  ⟨(push_data_spec [some "x"] 0 (some "v") (by decide)).1,
   (push_data_spec [some "x"] 0 (some "v") (by decide)).2.1,
   (push_data_spec [some "x"] 0 (some "v") (by decide)).2.2.2.2.2 7⟩

/- ==================== Claim C10 ==================== -/

/-- Claim C10: `testlabel` sets the decorated class's `_labels` attribute to
the union of the given labels with any pre-existing `_labels` (inherited or
from an earlier decoration), so labels accumulate across decorations and are
never replaced, and the decorator returns the same class object (its
identity, modelled by `name`, is preserved). -/
theorem testlabel_accumulates :
    ∀ (ls1 ls2 : List String) (cls : PyClass),
    (testlabel ls1 cls).labels = some (ls1.toFinset ∪ cls.labels.getD ∅)
    ∧ (testlabel ls1 cls).name = cls.name
    ∧ (testlabel ls2 (testlabel ls1 cls)).labels
        = some (ls2.toFinset ∪ (ls1.toFinset ∪ cls.labels.getD ∅))
    ∧ (testlabel ls2 (testlabel ls1 cls)).name = cls.name := by
  intro ls1 ls2 cls
  refine ⟨rfl, rfl, ?_, rfl⟩
  simp [testlabel]

/- ==================== Claim C1 ==================== -/

/-- Claim C1 (code bug): the `csv` action aborts with `NameError` on its
first loop iteration — the bare global `FEED_URI` it evaluates is never
bound (only the class attribute `BoltDepotSpider.FEED_URI` exists) — so no
records are loaded and no CSV is emitted for any requested catalogue; here
evaluated at the default catalogue list. -/
theorem csv_action_name_error :
    csvAction ["woodscrews", "bolts", "nuts", "threaded-rods"]
      = .error PyError.nameError := rfl

/- ==================== Claim C5 ==================== -/

/-- Claim C5: for any two requested action lists with the same members (the
script only tests membership, so input order and duplicates are ignored)
the executed phase sequence is identical, and that sequence is always
strictly increasing in the canonical order scrape < csv < build — a phase
never begins before one that canonically precedes it. -/
theorem action_order_canonical :
    ∀ (acts acts' : List PyAction) (cats : List String),
    (∀ a, acts.contains a = acts'.contains a) →
    runActions acts cats = runActions acts' cats
    ∧ List.Pairwise (fun a b => rank a < rank b) (runActions acts cats) := by
  intro acts acts' cats h
  constructor
  · simp only [runActions, h]
  · by_cases hs : PyAction.scrape ∈ acts <;>
      by_cases hc : PyAction.csv ∈ acts <;>
      by_cases hb : PyAction.build ∈ acts <;>
      cases cats <;>
      simp [runActions, hs, hc, hb, csvAction, rank]

/-- Claim C5 witness: the input orders `[build, csv, scrape]` and
`[scrape, csv, build]` produce the same canonically ordered execution. -/
theorem action_order_canonical_witness :
    runActions [PyAction.build, PyAction.csv, PyAction.scrape] ["bolts"]
      = runActions [PyAction.scrape, PyAction.csv, PyAction.build] ["bolts"]
    ∧ List.Pairwise (fun a b => rank a < rank b)
        (runActions [PyAction.build, PyAction.csv, PyAction.scrape]
          ["bolts"]) :=
  action_order_canonical _ _ _ (fun a => by cases a <;> rfl)

/- ==================== grid-write lemmas (for C6) ==================== -/

theorem gridGrow_getD (g : Grid) (i a : Nat) :
    (gridGrow g i).getD a [] = g.getD a [] := by
  rw [gridGrow]
  split
  · rename_i hle
    by_cases ha : a < g.length
    · exact getD_append_of_lt _ _ _ _ ha
    · rw [getD_append_of_le _ _ _ _ (by omega),
        getD_of_length_le g a [] (by omega)]
      by_cases hrep : a - g.length < i + 1 - g.length
      · exact getD_replicate _ _ _ _ hrep
      · exact getD_of_length_le _ _ _
          (by rw [List.length_replicate]; omega)
  · rfl

theorem rowGrow_getD (r : GRow) (i a : Nat) :
    (rowGrow r i).getD a none = r.getD a none := by
  rw [rowGrow]
  split
  · rename_i hle
    by_cases ha : a < r.length
    · exact getD_append_of_lt _ _ _ _ ha
    · rw [getD_append_of_le _ _ _ _ (by omega),
        getD_of_length_le r a none (by omega)]
      by_cases hrep : a - r.length < i + 1 - r.length
      · exact getD_replicate _ _ _ _ hrep
      · exact getD_of_length_le _ _ _
          (by rw [List.length_replicate]; omega)
  · rfl

theorem rowSet_getD_ne (r : GRow) (i a : Nat) (v : Option String)
    (h : i ≠ a) : (rowSet r i v).getD a none = r.getD a none := by
  rw [rowSet, getD_set_of_ne _ _ _ _ _ h, rowGrow_getD]

theorem gridGrow_length (g : Grid) (i : Nat) : i < (gridGrow g i).length := by
  rw [gridGrow]
  split
  · simp; omega
  · omega

theorem glookup_writeCellAt_self (g : Grid) (x y : Nat) (v : String) :
    glookup (writeCellAt g x y v) x y = some v := by
  rw [writeCellAt, glookup,
    getD_set_of_lt _ _ _ _ (gridGrow_length g x), rowSet_getD_self]

theorem glookup_writeCellAt_ne (g : Grid) (x y x' y' : Nat) (v : String)
    (h : x ≠ x' ∨ y ≠ y') :
    glookup (writeCellAt g x y v) x' y' = glookup g x' y' := by
  rw [writeCellAt, glookup, glookup]
  by_cases hx : x = x'
  · subst hx
    cases h with
    | inl h => omega
    | inr h =>
      rw [getD_set_of_lt _ _ _ _ (gridGrow_length g x),
        rowSet_getD_ne _ _ _ _ h, gridGrow_getD]
  · rw [getD_set_of_ne _ _ _ _ _ hx, gridGrow_getD]

theorem glookup_rowWrite_self (g : Grid) (x k c : Nat) (v : String)
    (dj : Nat) (h : dj < c) :
    glookup (rowWrite g x k c v) x (k + dj) = some v := by
  induction c generalizing g with
  | zero => omega
  | succ m ih =>
    rw [rowWrite, List.range_succ, List.foldl_append]
    by_cases hdj : dj = m
    · subst hdj
      exact glookup_writeCellAt_self _ _ _ _
    · rw [List.foldl_cons, List.foldl_nil,
        glookup_writeCellAt_ne _ _ _ _ _ _ (Or.inr (by omega))]
      exact ih _ (by omega)

theorem glookup_rowWrite_ne (g : Grid) (x k c : Nat) (v : String)
    (x' y' : Nat) (h : x ≠ x') :
    glookup (rowWrite g x k c v) x' y' = glookup g x' y' := by
  induction c generalizing g with
  | zero => rfl
  | succ m ih =>
    rw [rowWrite, List.range_succ, List.foldl_append, List.foldl_cons,
      List.foldl_nil, glookup_writeCellAt_ne _ _ _ _ _ _ (Or.inl h)]
    exact ih g

theorem glookup_rectWrite (g : Grid) (i k rs cs : Nat) (v : String)
    (di dj : Nat) (hdi : di < rs) (hdj : dj < cs) :
    glookup (rectWrite g i k rs cs v) (i + di) (k + dj) = some v := by
  induction rs generalizing g with
  | zero => omega
  | succ m ih =>
    rw [rectWrite, List.range_succ, List.foldl_append, List.foldl_cons,
      List.foldl_nil]
    by_cases hdi2 : di = m
    · subst hdi2
      exact glookup_rowWrite_self _ _ _ _ _ _ hdj
    · rw [glookup_rowWrite_ne _ _ _ _ _ _ _ (by omega)]
      exact ih _ (by omega)

/- ==================== Claim C6 ==================== -/

/-- Claim C6: when `table_data` places a cell (processing it at physical row
`i` with running column cursor `j`), the slot search lands at column
`k = findFree (row i) j`, and the cell's (rstripped) text is written into
every grid position of the rectangle `[i, i+rowspan) x [k, k+colspan)` — the
state of the grid immediately after the cell's rectangle loop holds the
value at all those positions. -/
theorem merged_cell_rectangle :
    ∀ (g : Grid) (i j : Nat) (hdr : Bool) (cell : Cell) (di dj : Nat),
    di < cell.rowspan → dj < cell.colspan →
    glookup (processCell (g, j, hdr) i cell).1 (i + di)
        (findFree (g.getD i []) j + dj)
      = some (pyRstrip (cell.text.getD "")) := by
  intro g i j hdr cell di dj hdi hdj
  show glookup
      (rectWrite ((gridGrow g i).set i
          (rowSet ((gridGrow g i).getD i [])
            (findFree ((gridGrow g i).getD i []) j) (some (pyRstrip (cell.text.getD "")))))
        i (findFree ((gridGrow g i).getD i []) j) cell.rowspan cell.colspan
        (pyRstrip (cell.text.getD "")))
      (i + di) (findFree (g.getD i []) j + dj)
    = some (pyRstrip (cell.text.getD ""))
  rw [gridGrow_getD]
  exact glookup_rectWrite _ _ _ _ _ _ _ _ hdi hdj

/-- Claim C6 witness: a cell with value "X", rowspan 2 and colspan 1 placed
at grid position (0,0) of an empty grid appears as "X" at both (0,0) and
(1,0). -/
theorem merged_cell_rectangle_witness :
    glookup (processCell (([] : Grid), 0, true) 0 ⟨Tag.td, some "X", 2, 1⟩).1
        0 0 = some "X"
    ∧ glookup (processCell (([] : Grid), 0, true) 0
        ⟨Tag.td, some "X", 2, 1⟩).1 1 0 = some "X" :=
  ⟨merged_cell_rectangle [] 0 0 true ⟨Tag.td, some "X", 2, 1⟩ 0 0
      (by decide) (by decide),
   merged_cell_rectangle [] 0 0 true ⟨Tag.td, some "X", 2, 1⟩ 1 0
      (by decide) (by decide)⟩

/- ==================== Claim C4 ==================== -/

theorem processCell_bool (acc : Grid × Nat × Bool) (i : Nat) (c : Cell) :
    (processCell acc i c).2.2 = (acc.2.2 && (c.tag == Tag.th)) := rfl

theorem foldCells_bool (cells : TRow) (acc : Grid × Nat × Bool) (i : Nat) :
    (cells.foldl (fun a c => processCell a i c) acc).2.2
      = (acc.2.2 && cells.all (fun c => c.tag == Tag.th)) := by
  induction cells generalizing acc with
  | nil => simp
  | cons c cs ih =>
    rw [List.foldl_cons, ih, processCell_bool, List.all_cons, Bool.and_assoc]

theorem processRow_bool (g : Grid) (i : Nat) (cells : TRow) :
    (processRow g i cells).2 = cells.all (fun c => c.tag == Tag.th) := by
  show (cells.foldl (fun a c => processCell a i c) (g, 0, true)).2.2 = _
  rw [foldCells_bool, Bool.true_and]

theorem tableLoop_count (rows : List TRow) (i : Nat) (g : Grid) (hc : Nat) :
    (tableLoop rows i g hc).2
      = hc + (rows.filter (fun r => r.all (fun c => c.tag == Tag.th))).length
    := by
  induction rows generalizing i g hc with
  | nil => rfl
  | cons r rest ih =>
    rw [tableLoop, ih, List.filter_cons, processRow_bool]
    by_cases h : r.all (fun c => c.tag == Tag.th) = true
    · simp [h]; omega
    · simp only [Bool.not_eq_true] at h
      simp [h]

/-- Claim C4 (amended): `header_row_count` equals the total number of table
rows in which every cell is header-tagged, wherever those rows occur (a row
with no cells counts vacuously) — not the length of the leading all-header
prefix; the two coincide exactly when all-header rows form a leading
prefix. -/
theorem header_count_counts_all_header_rows :
    ∀ (tbl : Table),
    (table_data tbl).2
      = (tbl.filter (fun r => r.all (fun c => c.tag == Tag.th))).length := by
  intro tbl
  rw [table_data, tableLoop_count]
  omega

/-- Claim C4 counterexample: a data row followed by an all-header row gives
`header_row_count = 1` although the leading all-header prefix is empty —
the code counts all-header rows anywhere, not just a leading prefix. -/
theorem header_count_not_leading_prefix :
    (table_data [[⟨Tag.td, some "x", 1, 1⟩], [⟨Tag.th, some "h", 1, 1⟩]]).2
        = 1
    ∧ leadingAllHeaderRows
        [[⟨Tag.td, some "x", 1, 1⟩], [⟨Tag.th, some "h", 1, 1⟩]] = 0
    ∧ (table_data [[⟨Tag.td, some "x", 1, 1⟩], [⟨Tag.th, some "h", 1, 1⟩]]).2
        ≠ leadingAllHeaderRows
            [[⟨Tag.td, some "x", 1, 1⟩], [⟨Tag.th, some "h", 1, 1⟩]] := by
  refine ⟨rfl, rfl, ?_⟩
  decide

/- ==================== Claim C3 ==================== -/

theorem pyListGet_neg_one (r : GRow) (rest : Grid) :
    pyListGet ([] : GRow) (r :: rest) (((0 : Nat) : Int) - 1)
      = .ok (r :: rest, (r :: rest).getD ((r :: rest).length - 1) []) := by
  rw [pyListGet]
  rw [if_neg (by push_cast; omega), if_neg (by norm_num),
    if_pos (by simp only [List.length_cons]; push_cast; omega)]
  have h2 : ((((r :: rest).length : Int)) + (((0 : Nat) : Int) - 1)).toNat
      = (r :: rest).length - 1 := by
    simp only [List.length_cons]
    push_cast
    omega
  rw [h2]

/-- Claim C3 counterexample: a nonempty table whose `header_row_count` is 0
makes `parse` silently succeed — the index `-1` access returns the last grid
row, which is used as the header (here the single data row is zipped with
itself and emitted), instead of being guarded or surfacing as an error. -/
theorem zero_header_silent_success :
    (table_data [[⟨Tag.td, some "x", 1, 1⟩]]).2 = 0
    ∧ parse [[⟨Tag.td, some "x", 1, 1⟩]] = .ok [[(some "x", some "x")]] :=
  ⟨rfl, rfl⟩

/-- Claim C3 (amended): when `header_row_count = 0`, the `data[-1]` header
access raises `IndexError` only if the grid is empty; on a nonempty grid
`parse` silently proceeds, using the last grid row as the header for every
grid row (including itself). -/
theorem zero_header_uses_last_row :
    ∀ (tbl : Table), (table_data tbl).2 = 0 →
    ((table_data tbl).1 = [] → parse tbl = .error PyError.indexError)
    ∧ (∀ (r : GRow) (rest : Grid), (table_data tbl).1 = r :: rest →
        parse tbl
          = .ok (emitRecords
              ((table_data tbl).1.getD ((table_data tbl).1.length - 1) [])
              (table_data tbl).1)) := by
  intro tbl h0
  rcases htd : table_data tbl with ⟨data, hc⟩
  rw [htd] at h0
  simp only at h0
  subst h0
  constructor
  · intro hnil
    simp only at hnil
    subst hnil
    simp only [parse, htd]
    rfl
  · intro r rest hcons
    simp only at hcons
    subst hcons
    simp only [parse, htd, pyListGet_neg_one, List.drop_zero]

/-- Claim C3 witness: the empty table hits the `IndexError` branch and the
one-data-row table hits the silent last-row-as-header branch of the amended
theorem. -/
theorem zero_header_uses_last_row_witness :
    parse ([] : Table) = .error PyError.indexError
    ∧ parse [[⟨Tag.td, some "x", 1, 1⟩]]
        = .ok (emitRecords
            ((table_data [[⟨Tag.td, some "x", 1, 1⟩]]).1.getD
              ((table_data [[⟨Tag.td, some "x", 1, 1⟩]]).1.length - 1) [])
            (table_data [[⟨Tag.td, some "x", 1, 1⟩]]).1) :=
  ⟨(zero_header_uses_last_row [] rfl).1 rfl,
   (zero_header_uses_last_row [[⟨Tag.td, some "x", 1, 1⟩]] rfl).2
     [some "x"] [] rfl⟩

/- ==================== Claim C7 ==================== -/

/-- Claim C7 counterexample: a merged header cell duplicates the header key,
and `dict(zip(header, row))` keeps only the last pairing per key — here the
pairs are `[(A, "x"), (A, "")]`, so the record collapses to `{A: ""}` and
the row is NOT emitted although one of its paired values ("x") is
non-empty, refuting the claimed if-and-only-if on zipped pairs. -/
theorem dup_header_key_drops_nonempty_row :
    parse [[⟨Tag.th, some "A", 1, 2⟩],
           [⟨Tag.td, some "x", 1, 1⟩, ⟨Tag.td, some "", 1, 1⟩]] = .ok []
    ∧ ((List.zip
          ((table_data [[⟨Tag.th, some "A", 1, 2⟩],
             [⟨Tag.td, some "x", 1, 1⟩, ⟨Tag.td, some "", 1, 1⟩]]).1.getD 0 [])
          ((table_data [[⟨Tag.th, some "A", 1, 2⟩],
             [⟨Tag.td, some "x", 1, 1⟩, ⟨Tag.td, some "", 1, 1⟩]]).1.getD 1 [])).any
        (fun p => truthy p.2)) = true :=
  ⟨rfl, rfl⟩

/-- Claim C7 (amended): a row's record — the dict built from the zipped
pairs, where a later pair with a duplicate key overwrites the earlier
value — is emitted iff at least one of the record's values is truthy
(non-`None` and non-empty).  In particular every emitted record has a
truthy value (so an all-empty row is never emitted), but a row with a
non-empty zipped value may be dropped when a duplicate key shadows it. -/
theorem record_emitted_iff_truthy_value :
    (∀ (tbl : Table) (out : List Record), parse tbl = .ok out →
      ∀ rec ∈ out, rec.any (fun p => truthy p.2) = true)
    ∧ (∀ (header row : GRow),
        (mkRecord header row).any (fun p => truthy p.2) = true →
        emitRecords header [row] = [mkRecord header row]) := by
  constructor
  · intro tbl out hp rec hrec
    rcases htd : table_data tbl with ⟨data, hc⟩
    simp only [parse, htd] at hp
    cases hpl : pyListGet ([] : GRow) data ((hc : Int) - 1) with
    | error e =>
      rw [hpl] at hp
      simp at hp
    | ok p =>
      obtain ⟨d2, hd⟩ := p
      rw [hpl] at hp
      rw [Except.ok.injEq] at hp
      subst hp
      simp only [emitRecords, List.mem_filterMap] at hrec
      obtain ⟨row, hrow, hif⟩ := hrec
      split at hif
      · rename_i hany
        cases hif
        exact hany
      · cases hif
  · intro header row hany
    simp [emitRecords, hany]

/-- Claim C7 witness: the emitted record of a concrete parse has a truthy
value, and a concrete record with a truthy value is emitted. -/
theorem record_emitted_iff_truthy_value_witness :
    ([((some "x" : Option String), (some "x" : Option String))].any
        (fun p => truthy p.2) = true)
    ∧ emitRecords [some "A"] [[some "y"]]
        = [mkRecord [some "A"] [some "y"]] :=
  ⟨record_emitted_iff_truthy_value.1 [[⟨Tag.td, some "x", 1, 1⟩]]
      [[(some "x", some "x")]] rfl [(some "x", some "x")] (by simp),
   record_emitted_iff_truthy_value.2 [some "A"] [some "y"] (by decide)⟩

/- ==================== Claim C8 ==================== -/

theorem hasChar_false_of_not_mem (c : Char) (s : PyStr) (h : c ∉ s) :
    hasChar c s = false := by
  induction s with
  | nil => rfl
  | cons x rest ih =>
    have hx : x ≠ c := fun hh => h (hh ▸ List.mem_cons_self x rest)
    have hr : c ∉ rest := fun hh => h (List.mem_cons_of_mem x hh)
    simp [hasChar, ih hr, hx]

theorem not_mem_pyJoin (sep : Char) (parts : List PyStr) (c : Char)
    (hsep : c ≠ sep) (hparts : ∀ p ∈ parts, c ∉ p) :
    c ∉ pyJoin [sep] parts := by
  induction parts with
  | nil => simp [pyJoin]
  | cons p rest ih =>
    cases rest with
    | nil => exact hparts p (List.mem_cons_self p [])
    | cons q rest2 =>
      intro hmem
      simp only [pyJoin, List.append_assoc, List.singleton_append,
        List.mem_append, List.mem_cons] at hmem
      rcases hmem with h1 | h2 | h3
      · exact hparts p (List.mem_cons_self p _) h1
      · exact hsep h2
      · exact ih (fun x hx => hparts x (List.mem_cons_of_mem p hx)) h3

theorem splitChar_ne_nil (sep : Char) (l : PyStr) : splitChar sep l ≠ [] := by
  cases l with
  | nil => simp [splitChar]
  | cons c rest =>
    cases h : splitChar sep rest with
    | nil => simp [splitChar, h]
    | cons x xs =>
      by_cases hc : c = sep <;> simp [splitChar, h, hc]

theorem splitChar_of_not_mem (sep : Char) (a : PyStr) (h : sep ∉ a) :
    splitChar sep a = [a] := by
  induction a with
  | nil => rfl
  | cons c rest ih =>
    have hc : c ≠ sep := fun hh => h (hh ▸ List.mem_cons_self c rest)
    have hr : sep ∉ rest := fun hh => h (List.mem_cons_of_mem c hh)
    simp [splitChar, ih hr, hc]

theorem splitChar_append (sep : Char) (a b : PyStr) (h : sep ∉ a) :
    splitChar sep (a ++ sep :: b) = a :: splitChar sep b := by
  induction a with
  | nil =>
    cases hsb : splitChar sep b with
    | nil => exact absurd hsb (splitChar_ne_nil sep b)
    | cons x xs => simp [splitChar, hsb]
  | cons c a2 ih =>
    have hc : c ≠ sep := fun hh => h (hh ▸ List.mem_cons_self c a2)
    have ha : sep ∉ a2 := fun hh => h (List.mem_cons_of_mem c hh)
    simp [splitChar, ih ha, hc]

theorem splitChar_pyJoin (sep : Char) (parts : List PyStr)
    (hne : parts ≠ []) (h : ∀ p ∈ parts, sep ∉ p) :
    splitChar sep (pyJoin [sep] parts) = parts := by
  induction parts with
  | nil => exact absurd rfl hne
  | cons p rest ih =>
    cases rest with
    | nil =>
      exact splitChar_of_not_mem sep p (h p (List.mem_cons_self p []))
    | cons q rest2 =>
      have hj : pyJoin [sep] (p :: q :: rest2)
          = p ++ sep :: pyJoin [sep] (q :: rest2) := by
        simp [pyJoin]
      rw [hj, splitChar_append sep p _ (h p (List.mem_cons_self p _)),
        ih (by simp) (fun x hx => h x (List.mem_cons_of_mem p hx))]

theorem mapExcept_pairs (params : List (PyStr × PyStr))
    (h : ∀ kv ∈ params, '=' ∉ kv.1 ∧ '=' ∉ kv.2) :
    mapExcept pySplitEq (params.map (fun kv => kv.1 ++ '=' :: kv.2))
      = .ok params := by
  induction params with
  | nil => rfl
  | cons kv rest ih =>
    have hk := (h kv (List.mem_cons_self kv rest)).1
    have hv := (h kv (List.mem_cons_self kv rest)).2
    have hsp : pySplitEq (kv.1 ++ '=' :: kv.2) = .ok (kv.1, kv.2) := by
      rw [pySplitEq, splitChar_append '=' _ _ hk,
        splitChar_of_not_mem '=' _ hv]
    rw [List.map_cons]
    rw [mapExcept, hsp, ih (fun x hx => h x (List.mem_cons_of_mem kv hx))]

theorem dictSetItem_append {κ ν : Type} [DecidableEq κ]
    (d : List (κ × ν)) (k : κ) (v : ν) (h : k ∉ d.map Prod.fst) :
    dictSetItem d k v = d ++ [(k, v)] := by
  induction d with
  | nil => rfl
  | cons p rest ih =>
    have hp : p.1 ≠ k := by
      intro hh
      exact h (by simp [hh])
    rw [dictSetItem, if_neg hp, ih (fun hh => h (by simp [hh]))]
    rfl

theorem pyDict_foldl {κ ν : Type} [DecidableEq κ]
    (ps acc : List (κ × ν)) (h : ((acc ++ ps).map Prod.fst).Nodup) :
    ps.foldl (fun d p => dictSetItem d p.1 p.2) acc = acc ++ ps := by
  induction ps generalizing acc with
  | nil => simp
  | cons p rest ih =>
    have hd : p.1 ∉ acc.map Prod.fst := by
      rw [List.map_append, List.nodup_append] at h
      exact fun hmem => h.2.2 hmem (by simp)
    rw [List.foldl_cons, dictSetItem_append acc p.1 p.2 hd]
    have heq : acc ++ p :: rest = (acc ++ [p]) ++ rest := by simp
    rw [heq] at h ⊢
    exact ih (acc ++ [p]) h

theorem pyDictOfPairs_nodup {κ ν : Type} [DecidableEq κ]
    (ps : List (κ × ν)) (h : (ps.map Prod.fst).Nodup) :
    pyDictOfPairs ps = ps := by
  rw [pyDictOfPairs, pyDict_foldl ps [] (by simpa)]
  rfl

theorem filter_range_singleton (n k : Nat) (pred : Nat → Bool) (hk : k < n)
    (h : ∀ p, p < n → (pred p = true ↔ p = k)) :
    (List.range n).filter pred = [k] := by
  induction n with
  | zero => omega
  | succ m ih =>
    rw [List.range_succ, List.filter_append]
    by_cases hkm : k = m
    · subst hkm
      have h1 : (List.range k).filter pred = [] := by
        rw [List.filter_eq_nil_iff]
        intro a ha
        rw [List.mem_range] at ha
        intro hpa
        exact absurd ((h a (by omega)).mp hpa) (by omega)
      have h2 : pred k = true := (h k (by omega)).mpr rfl
      simp [h1, h2]
    · have h1 : (List.range m).filter pred = [k] :=
        ih (by omega) (fun p hp => h p (by omega))
      have h2 : pred m = false := by
        by_cases hp : pred m = true
        · exact absurd ((h m (by omega)).mp hp) (fun hh => hkm hh.symm)
        · simpa using hp
      simp [h1, h2]

theorem getD_cons_url (base P : PyStr) (p : Nat) :
    (base ++ '?' :: P).getD p ' '
      = if p < base.length then base.getD p ' '
        else ('?' :: P).getD (p - base.length) ' ' := by
  by_cases hp : p < base.length
  · rw [if_pos hp, getD_append_of_lt _ _ _ _ hp]
  · rw [if_neg hp, getD_append_of_le _ _ _ _ (by omega)]

theorem reSearch_canonical (base P : PyStr)
    (hqb : '?' ∉ base) (hnb : '\n' ∉ base)
    (hqP : '?' ∉ P) (hnP : '\n' ∉ P) :
    reSearch (base ++ '?' :: P) = some (base, P) := by
  have hlen : (base ++ '?' :: P).length = base.length + 1 + P.length := by
    simp [List.length_append]
    omega
  have hfil : (List.range (base ++ '?' :: P).length).filter
      (fun p => (base ++ '?' :: P).getD p ' ' == '?') = [base.length] := by
    apply filter_range_singleton _ _ _ (by omega)
    intro p hp
    rw [getD_cons_url]
    by_cases h1 : p < base.length
    · rw [if_pos h1]
      constructor
      · intro hb
        rw [beq_iff_eq] at hb
        exact absurd (hb ▸ getD_mem base p ' ' h1) hqb
      · omega
    · rw [if_neg h1]
      by_cases h2 : p = base.length
      · subst h2
        simp
      · have h3 : 1 ≤ p - base.length := by omega
        have h4 : ('?' :: P).getD (p - base.length) ' '
            = P.getD (p - base.length - 1) ' ' := by
          rcases Nat.exists_eq_add_of_le h3 with ⟨t, ht⟩
          rw [show p - base.length = t + 1 by omega]
          rfl
        rw [h4]
        constructor
        · intro hb
          rw [beq_iff_eq] at hb
          have h5 : p - base.length - 1 < P.length := by omega
          exact absurd (hb ▸ getD_mem P _ ' ' h5) hqP
        · omega
  rw [reSearch, hfil]
  have htake : (base ++ '?' :: P).take base.length = base := by
    simp
  have hdrop : (base ++ '?' :: P).drop (base.length + 1) = P := by
    have hsplit : base ++ '?' :: P = (base ++ ['?']) ++ P := by simp
    rw [hsplit]
    simp
  simp only [List.reverse_singleton, List.findSome?_cons, candAt, htake,
    hdrop, hasChar_false_of_not_mem _ _ hnb, hasChar_false_of_not_mem _ _ hnP]
  rfl

/-- Claim C8 counterexample: with a base path containing a newline (and no
`?` anywhere, keys and values free of `?`, `&`, `=`), the round trip fails:
`.` in the regex does not match a newline, so `re.search` returns `None` and
`split_url` raises `AttributeError` instead of returning `(base, mapping)`. -/
theorem split_join_newline_fails :
    split_url (join_url ['a', '\n', 'b'] [(['k'], ['v'])])
        = .error PyError.attributeError
    ∧ (Except.error PyError.attributeError
        ≠ (Except.ok ((['a', '\n', 'b'] : PyStr),
            [((['k'] : PyStr), (['v'] : PyStr))]) :
            Except PyError (PyStr × List (PyStr × PyStr)))) :=
  ⟨rfl, by simp⟩

/-- Claim C8 (amended): `split_url` is a left inverse of `join_url` for
every base path containing no `?` and no newline and every non-empty
mapping with distinct keys whose keys and values contain none of `?`, `&`,
`=`, or a newline; the joined parameter order is the association list's
(iteration) order, and it is returned unchanged. -/
theorem split_join_roundtrip :
    ∀ (base : PyStr) (params : List (PyStr × PyStr)),
    params ≠ [] →
    '?' ∉ base → '\n' ∉ base →
    (∀ kv ∈ params,
      ('?' ∉ kv.1 ∧ '&' ∉ kv.1 ∧ '=' ∉ kv.1 ∧ '\n' ∉ kv.1) ∧
      ('?' ∉ kv.2 ∧ '&' ∉ kv.2 ∧ '=' ∉ kv.2 ∧ '\n' ∉ kv.2)) →
    (params.map Prod.fst).Nodup →
    split_url (join_url base params) = .ok (base, params) := by
  intro base params hne hqb hnb hkv hnd
  have hpart : ∀ c : Char, c ≠ '=' →
      (∀ kv ∈ params, c ∉ kv.1 ∧ c ∉ kv.2) →
      ∀ p ∈ params.map (fun kv => kv.1 ++ '=' :: kv.2), c ∉ p := by
    intro c hc hin p hp
    rw [List.mem_map] at hp
    obtain ⟨kv, hkv2, hpe⟩ := hp
    subst hpe
    intro hmem
    rw [List.mem_append, List.mem_cons] at hmem
    rcases hmem with h1 | h2 | h3
    · exact (hin kv hkv2).1 h1
    · exact hc h2
    · exact (hin kv hkv2).2 h3
  have hqP : '?' ∉ pyJoin ['&'] (params.map fun kv => kv.1 ++ '=' :: kv.2) :=
    not_mem_pyJoin _ _ _ (by decide)
      (hpart '?' (by decide) (fun kv hk => ⟨(hkv kv hk).1.1, (hkv kv hk).2.1⟩))
  have hnP : '\n' ∉ pyJoin ['&'] (params.map fun kv => kv.1 ++ '=' :: kv.2) :=
    not_mem_pyJoin _ _ _ (by decide)
      (hpart '\n' (by decide)
        (fun kv hk => ⟨(hkv kv hk).1.2.2.2, (hkv kv hk).2.2.2.2⟩))
  have hre : reSearch (base ++ '?' ::
      pyJoin ['&'] (params.map fun kv => kv.1 ++ '=' :: kv.2))
      = some (base, pyJoin ['&'] (params.map fun kv => kv.1 ++ '=' :: kv.2)) :=
    reSearch_canonical base _ hqb hnb hqP hnP
  have hsp : splitChar '&'
      (pyJoin ['&'] (params.map fun kv => kv.1 ++ '=' :: kv.2))
      = params.map (fun kv => kv.1 ++ '=' :: kv.2) :=
    splitChar_pyJoin '&' _ (by simpa using hne)
      (hpart '&' (by decide)
        (fun kv hk => ⟨(hkv kv hk).1.2.1, (hkv kv hk).2.2.1⟩))
  have hme : mapExcept pySplitEq (splitChar '&'
      (pyJoin ['&'] (params.map fun kv => kv.1 ++ '=' :: kv.2)))
      = .ok params := by
    rw [hsp]
    exact mapExcept_pairs params
      (fun kv hk => ⟨(hkv kv hk).1.2.2.1, (hkv kv hk).2.2.2.1⟩)
  rw [join_url]
  simp only [split_url, hre, hme, pyDictOfPairs_nodup params hnd]

/-- Claim C8 witness: a concrete two-parameter round trip through
`join_url` and `split_url`. -/
theorem split_join_roundtrip_witness :
    split_url (join_url ['a'] [(['k'], ['v']), (['j'], ['w'])])
      = .ok (['a'], [(['k'], ['v']), (['j'], ['w'])]) :=
  split_join_roundtrip ['a'] [(['k'], ['v']), (['j'], ['w'])]
    (by decide) (by decide) (by decide) (by decide) (by decide)

/- ==================== bridging lemmas ====================

The table extractor's grid operations (`rowGrow`/`rowSet`/`gridGrow`) are the
`GrowingList` methods specialized to the nonnegative indices and default
factories used there; these lemmas tie them to the modelled
`__getitem__`/`__setitem__`. -/

theorem pyListSet_nat_rowSet (r : GRow) (i : Nat) (v : Option String) :
    pyListSet (none : Option String) r (i : Int) v = .ok (rowSet r i v) := by
  by_cases h : r.length ≤ i
  · rw [pyListSet, if_pos (by omega), rowSet, rowGrow, if_pos h]
    have h1 : (((i : Nat) : Int) + 1 - r.length).toNat = i + 1 - r.length := by
      omega
    have h2 : ((i : Nat) : Int).toNat = i := by omega
    rw [h1, h2]
  · rw [pyListSet, if_neg (by omega),
      if_pos (by omega), rowSet, rowGrow, if_neg h]
    have h2 : ((i : Nat) : Int).toNat = i := by omega
    rw [h2]

theorem pyListGet_nat_gridGrow (g : Grid) (i : Nat) :
    pyListGet ([] : GRow) g (i : Int)
      = .ok (gridGrow g i, (gridGrow g i).getD i []) := by
  by_cases h : g.length ≤ i
  · rw [pyListGet, if_pos (by omega), gridGrow, if_pos h]
    have h1 : (((i : Nat) : Int) + 1 - g.length).toNat = i + 1 - g.length := by
      omega
    have h2 : ((i : Nat) : Int).toNat = i := by omega
    rw [h1, h2]
  · rw [pyListGet, if_neg (by omega),
      if_pos (by omega), gridGrow, if_neg h]
    have h2 : ((i : Nat) : Int).toNat = i := by omega
    rw [h2]
